import Mathlib

/-!
A shallow embedding of the GaugeBench evaluation and consolidation pipeline
(`src/index.ts` and the consolidation module), together with proofs about the
scoring, parsing, persistence and re-aggregation behaviour.

Machine doubles never have arithmetic performed on them in the scored paths:
they are only produced by `JSON.parse` / `parseFloat` and compared with `===`.
They are therefore modelled as rationals plus an explicit `NaN` element whose
strict equality (`===`) is never true, exactly as in the source.
-/

namespace GaugeBench

/-- A JavaScript number as it occurs in this program: either `NaN` (produced by
`parseFloat` on non-numeric text) or an ordinary numeric value. `===` on
numbers is modelled by `JsNum.seq`; `NaN` compares unequal to everything,
including itself. -/
inductive JsNum where
  | nan
  | num (q : ℚ)
deriving DecidableEq

/-- Strict equality `===` between two JavaScript numbers. -/
def JsNum.seq : JsNum → JsNum → Bool
  | .num a, .num b => decide (a = b)
  | _, _ => false

/-- `Number.isNaN`. -/
def JsNum.isNaN : JsNum → Bool
  | .nan => true
  | _ => false

/-- A JSON value as returned by `JSON.parse` on a model reply. JSON has no
`NaN` and no `undefined`, so numbers are plain rationals. An object's field
list has the distinct keys `JSON.parse` produces. -/
inductive JVal where
  | jnull
  | jbool (b : Bool)
  | jnum (q : ℚ)
  | jstr (s : String)
  | jarr (elems : List JVal)
  | jobj (fields : List (String × JVal))

/-- A prediction field is a JavaScript value: `none` models `undefined`
(a key absent from the parsed object), `some .jnull` models `null` (the
catch-branch fallback in `processImage`). -/
abbrev JsField := Option JVal

/-- One ground-truth entry, as built by `loadGroundTruth`: the numeric columns
went through `parseFloat` (so they may be `NaN`), `units` is the raw string. -/
structure GroundTruthEntry where
  filename : String
  min_value : JsNum
  max_value : JsNum
  reading_value : JsNum
  units : String

/-- Lookup in the ground-truth record. `loadGroundTruth` assigns
`groundTruth[row.filename] = …` row by row, so a later row with the same
filename overwrites an earlier one; lookup therefore finds the last entry. -/
def gtLookup (gt : List GroundTruthEntry) (fn : String) : Option GroundTruthEntry :=
  gt.reverse.find? (fun e => e.filename == fn)

/-- The per-image record `processImage` returns: the filename plus the four
fields read off the parsed reply. -/
structure Prediction where
  filename : String
  min_value : JsField
  max_value : JsField
  reading_value : JsField
  units : JsField

/-- The record returned from the catch branch of `processImage`: every field
is the JavaScript literal `null`. -/
def nullPrediction (filename : String) : Prediction :=
  ⟨filename, some .jnull, some .jnull, some .jnull, some .jnull⟩

/-- JavaScript property access `v[k]` on a parsed JSON value. The outer
`Option` is the exception monad: accessing a property of `null` throws a
`TypeError` (`none`); on any other value the access succeeds, yielding
`undefined` for non-objects and for absent keys. -/
def getProp : JVal → String → Option JsField
  | .jnull, _ => none
  | .jobj fields, k => some ((fields.find? (fun p => p.1 == k)).map Prod.snd)
  | _, _ => some none

/-- Key lookup on a parsed JSON object: absent keys yield `undefined`. -/
def objGet (fields : List (String × JVal)) (k : String) : JsField :=
  (fields.find? (fun p => p.1 == k)).map Prod.snd

/-- The parsing stage of `processImage`: `parsed` is the outcome of
`JSON.parse(content)` (`none` when it throws). The `try` block covers both the
parse and the four property accesses, so a throwing access (top-level `null`)
also lands in the catch branch, which returns the all-`null` record. -/
def parsePrediction (filename : String) (parsed : Option JVal) : Prediction :=
  match parsed with
  | none => nullPrediction filename
  | some v =>
    match getProp v "min_value", getProp v "max_value",
          getProp v "reading_value", getProp v "units" with
    | some a, some b, some c, some d => ⟨filename, a, b, c, d⟩
    | _, _, _, _ => nullPrediction filename

/-- `processImage`: the model invocation (`adapter`) either throws (HTTP or
API error, outside the `try`) or returns a reply whose `JSON.parse` outcome is
modelled directly. Invocation errors propagate; parse failures do not. -/
def processImage (adapter : String → Except String (Option JVal))
    (filename : String) : Except String Prediction :=
  match adapter filename with
  | .error e => .error e
  | .ok parsed => .ok (parsePrediction filename parsed)

/-- `Promise.all`: succeeds with all results when every task succeeds, rejects
as soon as any task rejects. -/
def promiseAll {ε α : Type} : List (Except ε α) → Except ε (List α)
  | [] => .ok []
  | x :: xs =>
    match x with
    | .error e => .error e
    | .ok a => (promiseAll xs).map (a :: ·)

/-- Strict equality `===` between a prediction field and a ground-truth
number: only a numeric field can equal a number, and `NaN` equals nothing. -/
def jsSeqNum : JsField → JsNum → Bool
  | some (.jnum q), .num g => decide (q = g)
  | _, _ => false

/-- Strict equality `===` between a prediction field and a ground-truth
string: only a string field can equal a string. -/
def jsSeqStr : JsField → String → Bool
  | some (.jstr s), u => decide (s = u)
  | _, _ => false

/-- The run command's per-response correctness test (index.ts lines 115-119):
`gt && res.reading_value === gt.reading_value && res.units === gt.units`. -/
def predCorrect (gt : List GroundTruthEntry) (p : Prediction) : Bool :=
  match gtLookup gt p.filename with
  | none => false
  | some e => jsSeqNum p.reading_value e.reading_value && jsSeqStr p.units e.units

/-- The `correct` counter accumulated over the responses. -/
def countCorrect (gt : List GroundTruthEntry) (ps : List Prediction) : ℕ :=
  (ps.filter (predCorrect gt)).length

/-- The score expression used at both scoring sites:
`total ? (correct / total) * 100 : 0`. -/
def scoreFormula (correct total : ℕ) : ℚ :=
  if total = 0 then 0 else (correct : ℚ) / (total : ℚ) * 100

/-- The outcome of one run: the records written to the per-model CSV, in input
order, and the score written to the metadata file. -/
structure RunResult where
  records : List Prediction
  score : ℚ

/-- The run command's core (index.ts lines 99-121): fan out `processImage`
over the image list, await `Promise.all`, then write the CSV and compute
`score` with `imageFiles.length` as the denominator. A rejected promise makes
the whole `await` throw, so nothing is assembled or written in that case. -/
def runExecutor (gt : List GroundTruthEntry) (images : List String)
    (adapter : String → Except String (Option JVal)) : Except String RunResult :=
  match promiseAll (images.map (processImage adapter)) with
  | .error e => .error e
  | .ok responses => .ok ⟨responses, scoreFormula (countCorrect gt responses) images.length⟩

/-! ### CSV persistence

The spec treats on-disk CSV/JSON encoding as a serialization utility with a
fixed schema. A persisted cell is modelled as either the empty cell (written
for `null`/`undefined`), a numeric value (written and re-read exactly — JS
number formatting round-trips through `parseFloat`), or a raw string. -/

/-- A persisted CSV cell. -/
inductive Cell where
  | empty
  | num (x : JsNum)
  | str (s : String)
deriving DecidableEq

/-- Decimal digits of a natural number (via `Nat.repr`). -/
def natDigits (n : ℕ) : String := toString n

/-- Strip trailing `'0'` characters. -/
def trimZeros (cs : List Char) : List Char :=
  (cs.reverse.dropWhile (fun c => c == '0')).reverse

/-- Decimal rendering of a rational, modelling how JS prints the numbers that
occur in this program (finite decimals; the final branch is unreachable for
values a double can print). Used only for a numeric value landing in a string
comparison. -/
def ratDecimalRepr (q : ℚ) : String :=
  let sgn := if q < 0 then "-" else ""
  let n := q.num.natAbs
  let d := q.den
  match (List.range 41).find? (fun k => 10 ^ k % d == 0) with
  | some k =>
    if k = 0 then sgn ++ natDigits (n / d)
    else
      let p := 10 ^ k
      let m := n * (p / d)
      let frac := trimZeros ((natDigits (p + m % p)).data.drop 1)
      if frac.isEmpty then sgn ++ natDigits (m / p)
      else sgn ++ natDigits (m / p) ++ "." ++ ⟨frac⟩
  | none => sgn ++ natDigits n ++ "/" ++ natDigits d

/-- `String(x)` for a JS number. -/
def jsNumToString : JsNum → String
  | .nan => "NaN"
  | .num q => ratDecimalRepr q

/-- String coercion of a parsed JSON value, as the CSV writer applies it to a
non-null field (array elements join with `","`, objects print opaquely). -/
def jvalCoerce : JVal → String
  | .jnull => ""
  | .jbool b => if b then "true" else "false"
  | .jnum q => ratDecimalRepr q
  | .jstr s => s
  | .jobj _ => "[object Object]"
  | .jarr elems => String.intercalate "," (elems.attach.map (fun x => jvalCoerce x.1))
decreasing_by
  have := List.sizeOf_lt_of_mem x.2
  simp only [JVal.jarr.sizeOf_spec]
  omega

/-- How the CSV writer serializes one prediction field: `null` and `undefined`
become the empty cell, numbers stay numbers, everything else is coerced to a
string. -/
def serializeField : JsField → Cell
  | none => .empty
  | some .jnull => .empty
  | some (.jbool b) => .str (if b then "true" else "false")
  | some (.jnum q) => .num (.num q)
  | some (.jstr s) => .str s
  | some (.jarr elems) => .str (jvalCoerce (.jarr elems))
  | some (.jobj fields) => .str (jvalCoerce (.jobj fields))

/-- A row of a persisted per-model CSV, as the consolidator re-reads it. -/
structure StoredRow where
  filename : String
  min_value : Cell
  max_value : Cell
  reading_value : Cell
  units : Cell
deriving DecidableEq

/-- The row the run command writes for one response. -/
def serializeRow (p : Prediction) : StoredRow :=
  ⟨p.filename, serializeField p.min_value, serializeField p.max_value,
    serializeField p.reading_value, serializeField p.units⟩

/-- JavaScript whitespace skipped by `parseFloat`. -/
def jsWhitespace (c : Char) : Bool :=
  c == ' ' || c == '\t' || c == '\n' || c == '\r'

/-- Numeric value of a digit list. -/
def digitsVal (ds : List Char) : ℕ :=
  ds.foldl (fun a c => a * 10 + (c.toNat - 48)) 0

/-- The optional exponent suffix accepted by `parseFloat` (ignored when its
digits are missing, as in JS). -/
def parseExponent (cs : List Char) : ℤ :=
  match cs with
  | 'e' :: rest | 'E' :: rest =>
    match rest with
    | '-' :: ds =>
      let d := ds.takeWhile Char.isDigit
      if d.isEmpty then 0 else -(digitsVal d : ℤ)
    | '+' :: ds =>
      let d := ds.takeWhile Char.isDigit
      if d.isEmpty then 0 else (digitsVal d : ℤ)
    | ds =>
      let d := ds.takeWhile Char.isDigit
      if d.isEmpty then 0 else (digitsVal d : ℤ)
  | _ => 0

/-- Scale a rational by a signed power of ten. -/
def applyExp (q : ℚ) (e : ℤ) : ℚ :=
  if 0 ≤ e then q * 10 ^ e.toNat else q / 10 ^ (-e).toNat

/-- The optional leading sign accepted by `parseFloat`. -/
def splitSign (cs : List Char) : ℚ × List Char :=
  match cs with
  | '-' :: rest => (-1, rest)
  | '+' :: rest => (1, rest)
  | _ => (1, cs)

/-- The optional fractional part: the digits after a `'.'` and the rest. -/
def fracPart (cs : List Char) : List Char × List Char :=
  match cs with
  | '.' :: rest => (rest.takeWhile Char.isDigit, rest.dropWhile Char.isDigit)
  | _ => ([], cs)

/-- The value of integer digits `ip` and fraction digits `fp`. -/
def mantissaOf (ip fp : List Char) : ℚ :=
  (digitsVal ip : ℚ) + (digitsVal fp : ℚ) / (10 : ℚ) ^ fp.length

/-- The longest-numeric-prefix parse at the heart of `parseFloat`: optional
sign, integer digits, optional fraction, optional exponent; `none` when no
digit is found. -/
def parseFloatCore (cs : List Char) : Option ℚ :=
  let cs1 := (splitSign cs).2
  let ip := cs1.takeWhile Char.isDigit
  let cs2 := cs1.dropWhile Char.isDigit
  let fp := (fracPart cs2).1
  if ip.isEmpty && fp.isEmpty then none
  else some (applyExp ((splitSign cs).1 * mantissaOf ip fp) (parseExponent (fracPart cs2).2))

/-- JS `parseFloat` on a string (the `"Infinity"` literal is not modelled; it
cannot arise from a serialized prediction cell in the claims below). -/
def parseFloatStr (s : String) : JsNum :=
  match parseFloatCore (s.data.dropWhile jsWhitespace) with
  | none => .nan
  | some q => .num q

/-- The string the consolidator's CSV reader hands back for a cell (every cell
re-reads as a string; the empty cell reads as `""`). -/
def cellStr : Cell → String
  | .empty => ""
  | .num x => jsNumToString x
  | .str s => s

/-- `parseFloat(row.reading_value)` applied to a re-read cell. Numbers written
by the utility round-trip exactly; the empty cell parses to `NaN`. -/
def cellParseFloat : Cell → JsNum
  | .empty => .nan
  | .num x => x
  | .str s => parseFloatStr s

/-! ### The consolidator -/

/-- The API selector stored in run metadata. -/
inductive ApiType where
  | openrouter
  | openai
deriving DecidableEq

/-- A run's metadata record; every field is optional because the JSON is read
without validation. -/
structure Metadata where
  model_id : Option String := none
  sanitized_model_id : Option String := none
  model_creator : Option String := none
  api_type : Option ApiType := none
  score : Option ℚ := none
  evaluated_at : Option String := none
deriving DecidableEq

/-- One leaderboard row. -/
structure LBRow where
  model_id : String
  model_creator : String
  score : ℚ
  units_accuracy : ℚ
deriving DecidableEq

/-- What a file in `test_outputs` can hold: a per-model prediction CSV, a
metadata JSON (`none` models a file that fails to read or parse), the
leaderboard CSV, or anything else. -/
inductive FileContent where
  | csvRows (rows : List StoredRow)
  | metaJson (m : Option Metadata)
  | lbRows (rows : List LBRow)
  | otherFile
deriving DecidableEq

/-- A named file in the run store. -/
structure FsFile where
  name : String
  content : FileContent
deriving DecidableEq

/-- The run store: the files of `test_outputs`, in directory-listing order. -/
abbrev Store := List FsFile

/-- Read a file by name. -/
def readFile (store : Store) (name : String) : Option FileContent :=
  (store.find? (fun f => f.name == name)).map (fun f => f.content)

/-- Write (create or replace) a file. -/
def writeFile : Store → String → FileContent → Store
  | [], name, c => [⟨name, c⟩]
  | f :: fs, name, c =>
    if f.name == name then ⟨name, c⟩ :: fs else f :: writeFile fs name c

/-- The fixed leaderboard file name. -/
def leaderboardName : String := "test_outputs_consolidated.csv"

/-- `f.endsWith(".csv")`. -/
def endsWithCsv (name : String) : Bool :=
  (".csv" : String).data.isSuffixOf name.data

/-- The discovery filter: `f.endsWith('.csv') && f !== 'test_outputs_consolidated.csv'`. -/
def isRunCsv (name : String) : Bool :=
  endsWithCsv name && name != leaderboardName

/-- `csvFile.replace(/\.csv$/, '')`. -/
def stemOf (name : String) : String :=
  if endsWithCsv name then ⟨name.data.take (name.data.length - 4)⟩ else name

/-- The run artifacts the consolidator discovers. -/
def discoveredRuns (store : Store) : List FsFile :=
  store.filter (fun f => isRunCsv f.name)

/-- `loadMetadata`: `undefined` when the file is absent, unreadable, or not a
metadata JSON. -/
def loadMetadata (store : Store) (metaName : String) : Option Metadata :=
  match readFile store metaName with
  | some (.metaJson (some m)) => some m
  | _ => none

/-- The rows of a discovered run file (a discovered run file always holds
prediction CSV rows). -/
def runRows : FileContent → List StoredRow
  | .csvRows rows => rows
  | _ => []

/-- The consolidator's per-row full-correctness test:
`!Number.isNaN(readingValue) && readingValue === gt.reading_value && units === gt.units`,
guarded by `if (!gt) return`. -/
def rowCorrect (gt : List GroundTruthEntry) (r : StoredRow) : Bool :=
  match gtLookup gt r.filename with
  | none => false
  | some e =>
    let rv := cellParseFloat r.reading_value
    !rv.isNaN && JsNum.seq rv e.reading_value && decide (cellStr r.units = e.units)

/-- The consolidator's per-row units test: `units === gt.units`, under the
same `if (!gt) return` guard. -/
def rowUnitsOk (gt : List GroundTruthEntry) (r : StoredRow) : Bool :=
  match gtLookup gt r.filename with
  | none => false
  | some e => decide (cellStr r.units = e.units)

/-- The recomputed score: `predictions.length ? (correct / predictions.length) * 100 : 0`. -/
def consolScore (gt : List GroundTruthEntry) (rows : List StoredRow) : ℚ :=
  scoreFormula (rows.filter (rowCorrect gt)).length rows.length

/-- The recomputed units accuracy, with the same zero-denominator guard. -/
def consolUnitsAccuracy (gt : List GroundTruthEntry) (rows : List StoredRow) : ℚ :=
  scoreFormula (rows.filter (rowUnitsOk gt)).length rows.length

/-- One leaderboard row for one discovered run file (`consolidateResults` loop
body). The external creator lookup `getModelCreator` is modelled by `oracle`;
it is consulted exactly when the metadata creator is absent or `"Unknown"`. -/
def consolidateRun (gt : List GroundTruthEntry) (oracle : String → ApiType → String)
    (store : Store) (f : FsFile) : LBRow :=
  let stem := stemOf f.name
  let meta := loadMetadata store (stem ++ ".meta.json")
  let modelId := (meta.bind Metadata.model_id).getD stem
  let creator0 := (meta.bind Metadata.model_creator).getD "Unknown"
  let api := (meta.bind Metadata.api_type).getD ApiType.openrouter
  let rows := runRows f.content
  let creator := if creator0 = "Unknown" then oracle modelId api else creator0
  ⟨modelId, creator, consolScore gt rows, consolUnitsAccuracy gt rows⟩

/-- `consolidateResults`: one leaderboard row per discovered run. -/
def consolidateResults (gt : List GroundTruthEntry) (oracle : String → ApiType → String)
    (store : Store) : List LBRow :=
  (discoveredRuns store).map (consolidateRun gt oracle store)

/-- One full consolidation pass: compute the rows and rewrite the leaderboard
file in full. -/
def runConsolidate (gt : List GroundTruthEntry) (oracle : String → ApiType → String)
    (store : Store) : List LBRow × Store :=
  let rows := consolidateResults gt oracle store
  (rows, writeFile store leaderboardName (.lbRows rows))

/-! ### Helper lemmas -/

lemma seq_iff (a b : JsNum) : JsNum.seq a b = true ↔ ∃ q : ℚ, a = .num q ∧ b = .num q := by
  cases a <;> cases b <;> simp [JsNum.seq, eq_comm]

lemma jsSeqNum_iff (v : JsField) (x : JsNum) :
    jsSeqNum v x = true ↔ ∃ q : ℚ, v = some (.jnum q) ∧ x = .num q := by
  rcases v with _ | jv
  · simp [jsSeqNum]
  · cases jv <;> cases x <;> simp [jsSeqNum, eq_comm]

lemma jsSeqStr_iff (v : JsField) (u : String) :
    jsSeqStr v u = true ↔ v = some (.jstr u) := by
  rcases v with _ | jv
  · simp [jsSeqStr]
  · cases jv <;> simp [jsSeqStr, eq_comm]

lemma scoreFormula_nonneg (c n : ℕ) : 0 ≤ scoreFormula c n := by
  unfold scoreFormula
  split
  · exact le_refl 0
  · positivity

lemma scoreFormula_le_100 {c n : ℕ} (h : c ≤ n) : scoreFormula c n ≤ 100 := by
  unfold scoreFormula
  split
  · norm_num
  · rename_i hn
    have hn' : (0 : ℚ) < n := by exact_mod_cast Nat.pos_of_ne_zero hn
    have h1 : (c : ℚ) / n ≤ 1 := by
      rw [div_le_one hn']
      exact_mod_cast h
    calc (c : ℚ) / n * 100 ≤ 1 * 100 := mul_le_mul_of_nonneg_right h1 (by norm_num)
      _ = 100 := by norm_num

lemma scoreFormula_mono {a b : ℕ} (n : ℕ) (h : a ≤ b) :
    scoreFormula a n ≤ scoreFormula b n := by
  unfold scoreFormula
  split
  · exact le_refl 0
  · rename_i hn
    have hn' : (0 : ℚ) < n := by exact_mod_cast Nat.pos_of_ne_zero hn
    have h1 : (a : ℚ) / n ≤ (b : ℚ) / n := by
      gcongr

    exact mul_le_mul_of_nonneg_right h1 (by norm_num)

lemma length_filter_mono {α : Type} (p q : α → Bool) (l : List α)
    (h : ∀ a, p a = true → q a = true) :
    (l.filter p).length ≤ (l.filter q).length := by
  induction l with
  | nil => simp
  | cons a t ih =>
    by_cases hp : p a = true
    · have hq := h a hp
      simp only [List.filter_cons, hp, hq, if_true, List.length_cons]
      omega
    · simp only [List.filter_cons, hp, if_false, Bool.false_eq_true]
      by_cases hq : q a = true
      · simp only [hq, if_true, List.length_cons]
        omega
      · simp only [hq, if_false, Bool.false_eq_true]
        exact ih

lemma promiseAll_ok_of_forall {ε α : Type} (l : List (Except ε α))
    (h : ∀ x ∈ l, ∃ a, x = .ok a) :
    ∃ xs, promiseAll l = .ok xs ∧ xs.length = l.length := by
  induction l with
  | nil => exact ⟨[], rfl, rfl⟩
  | cons x t ih =>
    obtain ⟨a, ha⟩ := h x (List.mem_cons_self x t)
    obtain ⟨xs, hxs, hlen⟩ := ih (fun y hy => h y (List.mem_cons_of_mem x hy))
    exact ⟨a :: xs, by simp [promiseAll, ha, hxs, Except.map], by simp [hlen]⟩

lemma promiseAll_error_of_mem {ε α : Type} {l : List (Except ε α)} {e : ε}
    (h : Except.error e ∈ l) :
    ∃ e', promiseAll l = .error e' := by
  induction l with
  | nil => cases h
  | cons x t ih =>
    rcases x with e₀ | a
    · exact ⟨e₀, rfl⟩
    · rcases List.mem_cons.mp h with hx | ht
      · cases hx
      · obtain ⟨e', he'⟩ := ih ht
        exact ⟨e', by simp [promiseAll, he', Except.map]⟩

lemma gtLookup_append_single (gt : List GroundTruthEntry) (e : GroundTruthEntry)
    (fn : String) (h : e.filename ≠ fn) :
    gtLookup (gt ++ [e]) fn = gtLookup gt fn := by
  unfold gtLookup
  rw [List.reverse_append]
  have hb : (e.filename == fn) = false := by simp [h]
  simp [List.find?, hb]

lemma readFile_writeFile_ne (store : Store) (n m : String) (c : FileContent)
    (h : n ≠ m) : readFile (writeFile store m c) n = readFile store n := by
  induction store with
  | nil =>
    simp only [writeFile, readFile, List.find?]
    have : (m == n) = false := by simp [Ne.symm h]
    simp [this]
  | cons f fs ih =>
    by_cases hf : f.name == m
    · have hfm : f.name = m := by simpa using hf
      simp only [writeFile, hf, if_true, readFile, List.find?]
      have h1 : (m == n) = false := by simp [Ne.symm h]
      have h2 : (f.name == n) = false := by simp [hfm, Ne.symm h]
      simp [h1, h2]
    · simp only [writeFile, hf, if_false, Bool.false_eq_true, readFile, List.find?]
      by_cases hn : f.name == n
      · simp [hn]
      · simp only [hn, Bool.false_eq_true, if_false]
        exact ih

lemma isRunCsv_leaderboard : isRunCsv leaderboardName = false := by decide

lemma discoveredRuns_writeFile_lb (store : Store) (c : FileContent) :
    discoveredRuns (writeFile store leaderboardName c) = discoveredRuns store := by
  induction store with
  | nil => simp [writeFile, discoveredRuns, isRunCsv_leaderboard]
  | cons f fs ih =>
    by_cases hf : f.name == leaderboardName
    · have hfm : f.name = leaderboardName := by simpa using hf
      simp [writeFile, hf, discoveredRuns, List.filter_cons, hfm, isRunCsv_leaderboard]
    · simp only [writeFile, hf, if_false, Bool.false_eq_true, discoveredRuns,
        List.filter_cons]
      by_cases hr : isRunCsv f.name
      · simpa [hr] using congrArg (f :: ·) ih
      · simpa [hr] using ih

lemma meta_name_ne_leaderboard (s : String) : s ++ ".meta.json" ≠ leaderboardName := by
  intro h
  have hd : s.data ++ (".meta.json" : String).data = (leaderboardName : String).data := by
    have h2 := congrArg String.data h
    rwa [String.data_append] at h2
  have h3 : ((".meta.json" : String).data).getLast? =
      ((leaderboardName : String).data).getLast? := by
    rw [← hd, List.getLast?_append_of_ne_nil]
    intro hnil
    exact absurd hnil (by decide)
  exact absurd h3 (by decide)

lemma loadMetadata_writeFile_lb (store : Store) (c : FileContent) (s : String) :
    loadMetadata (writeFile store leaderboardName c) (s ++ ".meta.json") =
      loadMetadata store (s ++ ".meta.json") := by
  unfold loadMetadata
  rw [readFile_writeFile_ne _ _ _ _ (meta_name_ne_leaderboard s)]

lemma consolidateRun_writeFile_lb (gt : List GroundTruthEntry)
    (oracle : String → ApiType → String) (store : Store) (c : FileContent) (f : FsFile) :
    consolidateRun gt oracle (writeFile store leaderboardName c) f =
      consolidateRun gt oracle store f := by
  simp only [consolidateRun, loadMetadata_writeFile_lb]

/-- The predictions on which run-time scoring and CSV re-scoring agree: the
reading is a number, `null` or `undefined` (not, say, a numeric string that
`parseFloat` would revive), and the units are a string (or `null`/`undefined`
while the matching ground-truth units are non-empty, so that the empty cell
re-read as `""` cannot spuriously match). -/
def goodPred (gt : List GroundTruthEntry) (p : Prediction) : Prop :=
  (p.reading_value = none ∨ p.reading_value = some .jnull ∨
    ∃ q : ℚ, p.reading_value = some (.jnum q)) ∧
  ((∃ s, p.units = some (.jstr s)) ∨
    ((p.units = none ∨ p.units = some .jnull) ∧
      ∀ e, gtLookup gt p.filename = some e → e.units ≠ ""))

lemma seq_eq_jsSeqNum (q : ℚ) (x : JsNum) :
    JsNum.seq (.num q) x = jsSeqNum (some (.jnum q)) x := by
  cases x <;> simp [JsNum.seq, jsSeqNum]

lemma rowCorrect_serializeRow (gt : List GroundTruthEntry) (p : Prediction)
    (hp : goodPred gt p) : rowCorrect gt (serializeRow p) = predCorrect gt p := by
  obtain ⟨hr, hu⟩ := hp
  have hfn : (serializeRow p).filename = p.filename := rfl
  unfold rowCorrect predCorrect
  rw [hfn]
  cases hgt : gtLookup gt p.filename with
  | none => rfl
  | some e =>
    have hrv : (serializeRow p).reading_value = serializeField p.reading_value := rfl
    have hun : (serializeRow p).units = serializeField p.units := rfl
    rw [hrv, hun]
    have hunits : decide (cellStr (serializeField p.units) = e.units) =
        jsSeqStr p.units e.units := by
      rcases hu with ⟨s, hs⟩ | ⟨h0, hne⟩
      · rw [hs]; simp [serializeField, cellStr, jsSeqStr]
      · have hne' : e.units ≠ "" := hne e hgt
        rcases h0 with h0 | h0 <;>
          · rw [h0]
            simp [serializeField, cellStr, jsSeqStr, Ne.symm hne']
    rcases hr with h | h | ⟨q, h⟩
    · rw [h]; simp [serializeField, cellParseFloat, JsNum.isNaN, JsNum.seq, jsSeqNum]
    · rw [h]; simp [serializeField, cellParseFloat, JsNum.isNaN, JsNum.seq, jsSeqNum]
    · rw [h]
      have h1 : serializeField (some (.jnum q)) = .num (.num q) := rfl
      rw [h1]
      simp only [cellParseFloat, JsNum.isNaN, Bool.not_false, Bool.true_and]
      rw [seq_eq_jsSeqNum, hunits]

lemma countCorrect_serialize (gt : List GroundTruthEntry) (preds : List Prediction)
    (h : ∀ p ∈ preds, goodPred gt p) :
    ((preds.map serializeRow).filter (rowCorrect gt)).length = countCorrect gt preds := by
  induction preds with
  | nil => rfl
  | cons p t ih =>
    have hp := rowCorrect_serializeRow gt p (h p (List.mem_cons_self p t))
    have ht := ih (fun x hx => h x (List.mem_cons_of_mem p hx))
    unfold countCorrect at ht ⊢
    by_cases hc : predCorrect gt p
    · simp only [List.map_cons, List.filter_cons, hp, hc, if_true, List.length_cons]
      omega
    · simp only [List.map_cons, List.filter_cons, hp, hc, Bool.false_eq_true, if_false]
      exact ht

/-! ### The claims -/

/-- C1: a prediction with a ground-truth entry for its filename is counted
correct iff its reading is a genuine (non-`null`, non-`NaN`) number exactly
equal to the ground-truth reading and its units string-equal the ground-truth
units — both in the run command's scoring over in-memory values (`predCorrect`
feeding the `correct` counter) and in the consolidator's rescoring over
re-read CSV rows (`rowCorrect`). -/
theorem exact_match_scoring (gt : List GroundTruthEntry) (p : Prediction) (r : StoredRow) :
    (predCorrect gt p = true ↔ ∃ e, gtLookup gt p.filename = some e ∧
      (∃ q : ℚ, p.reading_value = some (.jnum q) ∧ e.reading_value = .num q) ∧
      p.units = some (.jstr e.units)) ∧
    (rowCorrect gt r = true ↔ ∃ e, gtLookup gt r.filename = some e ∧
      (∃ q : ℚ, cellParseFloat r.reading_value = .num q ∧ e.reading_value = .num q) ∧
      cellStr r.units = e.units) := by
  constructor
  · unfold predCorrect
    cases hgt : gtLookup gt p.filename with
    | none => simp
    | some e =>
      simp only [hgt, Bool.and_eq_true, jsSeqNum_iff, jsSeqStr_iff, Option.some.injEq]
      constructor
      · rintro ⟨⟨q, hq, he⟩, hu⟩
        exact ⟨e, rfl, ⟨q, hq, he⟩, hu⟩
      · rintro ⟨e', he', ⟨q, hq, hrq⟩, hu⟩
        subst he'
        exact ⟨⟨q, hq, hrq⟩, hu⟩
  · unfold rowCorrect
    cases hgt : gtLookup gt r.filename with
    | none => simp
    | some e =>
      simp only [hgt, Bool.and_eq_true, Bool.not_eq_true', Option.some.injEq,
        decide_eq_true_eq]
      constructor
      · rintro ⟨⟨hnan, hseq⟩, hu⟩
        obtain ⟨q, hq, he⟩ := (seq_iff _ _).mp hseq
        exact ⟨e, rfl, ⟨q, hq, he⟩, hu⟩
      · rintro ⟨e', he', ⟨q, hq, hrq⟩, hu⟩
        subst he'
        refine ⟨⟨?_, (seq_iff _ _).mpr ⟨q, hq, hrq⟩⟩, hu⟩
        rw [hq]
        rfl

/-- C4: in the consolidator's rescoring, the units accuracy is always at least
the full-match score, because the units-equality factor of `rowCorrect` is
exactly `rowUnitsOk`. -/
theorem units_accuracy_ge_score (gt : List GroundTruthEntry) (rows : List StoredRow) :
    consolScore gt rows ≤ consolUnitsAccuracy gt rows := by
  unfold consolScore consolUnitsAccuracy
  apply scoreFormula_mono
  apply length_filter_mono
  intro r hr
  unfold rowCorrect at hr
  unfold rowUnitsOk
  cases hgt : gtLookup gt r.filename with
  | none => rw [hgt] at hr; exact hr
  | some e =>
    rw [hgt] at hr
    simp only [Bool.and_eq_true] at hr
    exact hr.2

/-- C5: one consolidation pass writes the leaderboard file; because discovery
excludes exactly that file and rewrites the full row set from the unchanged
run artifacts, a second pass over the resulting store derives the identical
row list (hence a byte-identical leaderboard file), and discovery is unchanged
by the write. -/
theorem consolidate_idempotent (gt : List GroundTruthEntry)
    (oracle : String → ApiType → String) (store : Store) :
    (runConsolidate gt oracle ((runConsolidate gt oracle store).2)).1 =
      (runConsolidate gt oracle store).1 ∧
    discoveredRuns ((runConsolidate gt oracle store).2) = discoveredRuns store := by
  constructor
  · show consolidateResults gt oracle (writeFile store leaderboardName _) =
      consolidateResults gt oracle store
    unfold consolidateResults
    rw [discoveredRuns_writeFile_lb]
    exact List.map_congr_left
      (fun f _ => consolidateRun_writeFile_lb gt oracle store _ f)
  · exact discoveredRuns_writeFile_lb store _

/-- C6: when a discovered run's metadata is missing or unreadable
(`loadMetadata` yields nothing), consolidation still produces that run's row:
the model id falls back to the file stem, the api type to the default
`openrouter`, and the creator to `"Unknown"` — which triggers the best-effort
external resolver on exactly those fallback values — while the pass completes
with one row per discovered run. -/
theorem metadata_fallback_defaults (gt : List GroundTruthEntry)
    (oracle : String → ApiType → String) (store : Store) (f : FsFile)
    (hmem : f ∈ discoveredRuns store)
    (hmeta : loadMetadata store (stemOf f.name ++ ".meta.json") = none) :
    (consolidateRun gt oracle store f).model_id = stemOf f.name ∧
    (consolidateRun gt oracle store f).model_creator =
      oracle (stemOf f.name) ApiType.openrouter ∧
    consolidateRun gt oracle store f ∈ consolidateResults gt oracle store ∧
    (consolidateResults gt oracle store).length = (discoveredRuns store).length := by
  refine ⟨?_, ?_, List.mem_map_of_mem _ hmem, by simp [consolidateResults]⟩
  · simp [consolidateRun, hmeta]
  · simp [consolidateRun, hmeta]

/-- C6 witness: a store holding a single run CSV and no metadata file. -/
theorem metadata_fallback_defaults_witness :
    (consolidateRun [] (fun _ _ => "Unknown") [⟨"m.csv", .csvRows []⟩]
        ⟨"m.csv", .csvRows []⟩).model_id = stemOf "m.csv" ∧
    (consolidateRun [] (fun _ _ => "Unknown") [⟨"m.csv", .csvRows []⟩]
        ⟨"m.csv", .csvRows []⟩).model_creator =
      (fun _ _ => "Unknown") (stemOf "m.csv") ApiType.openrouter ∧
    consolidateRun [] (fun _ _ => "Unknown") [⟨"m.csv", .csvRows []⟩]
        ⟨"m.csv", .csvRows []⟩ ∈
      consolidateResults [] (fun _ _ => "Unknown") [⟨"m.csv", .csvRows []⟩] ∧
    (consolidateResults [] (fun _ _ => "Unknown") [⟨"m.csv", .csvRows []⟩]).length =
      (discoveredRuns [⟨"m.csv", .csvRows []⟩]).length :=
  metadata_fallback_defaults [] (fun _ _ => "Unknown") [⟨"m.csv", .csvRows []⟩]
    ⟨"m.csv", .csvRows []⟩ (by decide) rfl

/-- C7 counterexample: a run CSV with no accompanying metadata file still
contributes a leaderboard row, so metadata existence is not a commit signal. -/
theorem csv_without_metadata_produces_row :
    consolidateResults [] (fun _ _ => "Unknown") [⟨"m.csv", .csvRows []⟩] =
      [⟨"m", "Unknown", 0, 0⟩] := by
  rfl

/-- C7 amended: every discovered run CSV contributes exactly one leaderboard
row whether or not its metadata file exists; the metadata-as-commit-signal
convention is not enforced by the consolidator. -/
theorem every_discovered_csv_produces_row (gt : List GroundTruthEntry)
    (oracle : String → ApiType → String) (store : Store) :
    (consolidateResults gt oracle store).length = (discoveredRuns store).length ∧
    ∀ f ∈ discoveredRuns store,
      consolidateRun gt oracle store f ∈ consolidateResults gt oracle store := by
  exact ⟨by simp [consolidateResults], fun f hf => List.mem_map_of_mem _ hf⟩

/-- C7 amended witness. -/
theorem every_discovered_csv_produces_row_witness :
    consolidateRun [] (fun _ _ => "Unknown") [⟨"m2.csv", .csvRows []⟩]
        ⟨"m2.csv", .csvRows []⟩ ∈
      consolidateResults [] (fun _ _ => "Unknown") [⟨"m2.csv", .csvRows []⟩] :=
  (every_discovered_csv_produces_row [] (fun _ _ => "Unknown")
    [⟨"m2.csv", .csvRows []⟩]).2 _ (by decide)

lemma promiseAll_ok_length {ε α : Type} {l : List (Except ε α)} {xs : List α}
    (h : promiseAll l = .ok xs) : xs.length = l.length := by
  induction l generalizing xs with
  | nil =>
    simp only [promiseAll] at h
    cases h
    rfl
  | cons x t ih =>
    rcases x with e | a
    · simp [promiseAll] at h
    · simp only [promiseAll] at h
      cases hpt : promiseAll t with
      | error e => rw [hpt] at h; simp [Except.map] at h
      | ok ys =>
        rw [hpt] at h
        simp only [Except.map, Except.ok.injEq] at h
        subst h
        simp [ih hpt]

/-- C8: a completed run's score is `(correct / total images) * 100` with the
`total ? … : 0` guard (exactly `0` on zero images, never a `0/0`), hence always
in `[0, 100]`; the consolidator's recomputed score and units accuracy carry
the same zero-denominator guard and the same bounds. -/
lemma runExecutor_ok_spec (gt : List GroundTruthEntry) (images : List String)
    (adapter : String → Except String (Option JVal)) (out : RunResult)
    (h : runExecutor gt images adapter = .ok out) :
    out.score = scoreFormula (countCorrect gt out.records) images.length ∧
    out.records.length = images.length := by
  unfold runExecutor at h
  cases hall : promiseAll (images.map (processImage adapter)) with
  | error e => rw [hall] at h; cases h
  | ok responses =>
    rw [hall] at h
    cases h
    exact ⟨rfl, by rw [promiseAll_ok_length hall, List.length_map]⟩

theorem score_formula_and_bounds (gt : List GroundTruthEntry) (images : List String)
    (adapter : String → Except String (Option JVal)) (out : RunResult)
    (rows : List StoredRow) (h : runExecutor gt images adapter = .ok out) :
    out.score = scoreFormula (countCorrect gt out.records) images.length ∧
    (images = [] → out.score = 0) ∧
    0 ≤ out.score ∧ out.score ≤ 100 ∧
    (rows = [] → consolScore gt rows = 0 ∧ consolUnitsAccuracy gt rows = 0) ∧
    (0 ≤ consolScore gt rows ∧ consolScore gt rows ≤ 100) ∧
    (0 ≤ consolUnitsAccuracy gt rows ∧ consolUnitsAccuracy gt rows ≤ 100) := by
  have hout := runExecutor_ok_spec gt images adapter out h
  have hc : countCorrect gt out.records ≤ images.length := by
    rw [← hout.2]
    exact List.length_filter_le _ _
  refine ⟨hout.1, ?_, ?_, ?_, ?_, ⟨?_, ?_⟩, ⟨?_, ?_⟩⟩
  · intro hi
    rw [hout.1, hi]
    rfl
  · rw [hout.1]; exact scoreFormula_nonneg _ _
  · rw [hout.1]; exact scoreFormula_le_100 hc
  · intro hr
    subst hr
    exact ⟨rfl, rfl⟩
  · exact scoreFormula_nonneg _ _
  · exact scoreFormula_le_100 (List.length_filter_le _ _)
  · exact scoreFormula_nonneg _ _
  · exact scoreFormula_le_100 (List.length_filter_le _ _)

/-- C8 witness: the zero-image run and the zero-row consolidation. -/
theorem score_formula_and_bounds_witness :
    (runExecutor [] [] (fun _ => .ok none) = .ok ⟨[], 0⟩) ∧
    ((⟨[], 0⟩ : RunResult).score = 0 ∧
      0 ≤ consolScore [] ([] : List StoredRow) ∧
      consolScore [] ([] : List StoredRow) ≤ 100) := by
  have happ := score_formula_and_bounds [] [] (fun _ => .ok none) ⟨[], 0⟩ [] rfl
  exact ⟨rfl, happ.2.1 rfl, happ.2.2.2.2.2.1.1, happ.2.2.2.2.2.1.2⟩

lemma rowCorrect_gt_append (gt : List GroundTruthEntry) (e : GroundTruthEntry)
    (r : StoredRow) (h : r.filename ≠ e.filename) :
    rowCorrect (gt ++ [e]) r = rowCorrect gt r := by
  unfold rowCorrect
  rw [gtLookup_append_single gt e _ (Ne.symm h)]

lemma rowUnitsOk_gt_append (gt : List GroundTruthEntry) (e : GroundTruthEntry)
    (r : StoredRow) (h : r.filename ≠ e.filename) :
    rowUnitsOk (gt ++ [e]) r = rowUnitsOk gt r := by
  unfold rowUnitsOk
  rw [gtLookup_append_single gt e _ (Ne.symm h)]

/-- C9: a stored prediction whose filename has no ground-truth entry is simply
never counted (the scoring loop skips it, it is not an error), and a
ground-truth entry matching no stored prediction changes neither the
recomputed score nor the recomputed units accuracy — the denominator is the
prediction list alone. -/
theorem unknown_filenames_ignored (gt : List GroundTruthEntry) (rows : List StoredRow)
    (r : StoredRow) (e : GroundTruthEntry)
    (hr : gtLookup gt r.filename = none)
    (he : ∀ x ∈ rows, x.filename ≠ e.filename) :
    rowCorrect gt r = false ∧ rowUnitsOk gt r = false ∧
    consolScore (gt ++ [e]) rows = consolScore gt rows ∧
    consolUnitsAccuracy (gt ++ [e]) rows = consolUnitsAccuracy gt rows := by
  refine ⟨?_, ?_, ?_, ?_⟩
  · unfold rowCorrect; rw [hr]
  · unfold rowUnitsOk; rw [hr]
  · unfold consolScore
    rw [List.filter_congr (fun x hx => rowCorrect_gt_append gt e x (he x hx))]
  · unfold consolUnitsAccuracy
    rw [List.filter_congr (fun x hx => rowUnitsOk_gt_append gt e x (he x hx))]

/-- C9 witness: a stored row for an unknown filename, and a ground-truth entry
with no matching row. -/
theorem unknown_filenames_ignored_witness :
    rowCorrect [] ⟨"x.png", .empty, .empty, .empty, .str "psi"⟩ = false ∧
    rowUnitsOk [] ⟨"x.png", .empty, .empty, .empty, .str "psi"⟩ = false ∧
    consolScore ([] ++ [⟨"g.png", .num 0, .num 10, .num 5, "psi"⟩])
        [⟨"x.png", .empty, .empty, .empty, .str "psi"⟩] =
      consolScore [] [⟨"x.png", .empty, .empty, .empty, .str "psi"⟩] ∧
    consolUnitsAccuracy ([] ++ [⟨"g.png", .num 0, .num 10, .num 5, "psi"⟩])
        [⟨"x.png", .empty, .empty, .empty, .str "psi"⟩] =
      consolUnitsAccuracy [] [⟨"x.png", .empty, .empty, .empty, .str "psi"⟩] :=
  unknown_filenames_ignored [] [⟨"x.png", .empty, .empty, .empty, .str "psi"⟩]
    ⟨"x.png", .empty, .empty, .empty, .str "psi"⟩
    ⟨"g.png", .num 0, .num 10, .num 5, "psi"⟩ rfl (by decide)

/-- C2 counterexample: one failing model invocation (its rejection escapes
`processImage`'s `try`, which only guards `JSON.parse`) makes `Promise.all`
reject, so the whole batch aborts and nothing is assembled or written, even
though the other image's task succeeded. -/
theorem batch_aborts_on_invocation_failure :
    runExecutor [] ["a.png", "b.png"]
        (fun f => if f = "b.png" then .error "request failed" else .ok none) =
      .error "request failed" := rfl

/-- C2 amended: per-image parse failures are isolated — when every model
invocation returns (however unparseable its reply), the batch completes with
one record per image in input order — but a single rejected invocation makes
`Promise.all` reject and the run produce no result at all. -/
theorem batch_isolation_amended (gt : List GroundTruthEntry) (images : List String)
    (adapter : String → Except String (Option JVal)) (g : String → Option JVal) :
    ((∀ f ∈ images, adapter f = .ok (g f)) →
      runExecutor gt images adapter =
        .ok ⟨images.map (fun f => parsePrediction f (g f)),
          scoreFormula (countCorrect gt (images.map (fun f => parsePrediction f (g f))))
            images.length⟩) ∧
    (∀ f ∈ images, ∀ e, adapter f = .error e →
      ∀ out, runExecutor gt images adapter ≠ .ok out) := by
  constructor
  · intro h
    have hall : ∀ (l : List String), (∀ f ∈ l, adapter f = .ok (g f)) →
        promiseAll (l.map (processImage adapter)) =
          .ok (l.map (fun f => parsePrediction f (g f))) := by
      intro l
      induction l with
      | nil => intro _; rfl
      | cons f t ih =>
        intro hl
        have hf : processImage adapter f = .ok (parsePrediction f (g f)) := by
          unfold processImage
          rw [hl f (List.mem_cons_self f t)]
        simp only [List.map_cons, promiseAll, hf,
          ih (fun x hx => hl x (List.mem_cons_of_mem f hx)), Except.map]
    unfold runExecutor
    rw [hall images h]
  · intro f hf e he out hout
    have hmem : Except.error e ∈ images.map (processImage adapter) := by
      have hpe : processImage adapter f = .error e := by
        unfold processImage
        rw [he]
      exact hpe ▸ List.mem_map_of_mem (processImage adapter) hf
    obtain ⟨e', he'⟩ := promiseAll_error_of_mem hmem
    unfold runExecutor at hout
    rw [he'] at hout
    cases hout

/-- C2 amended witness: a run whose replies all arrive (one unparseable) and a
run with one rejected invocation. -/
theorem batch_isolation_amended_witness :
    (runExecutor [] ["a.png"] (fun _ => .ok none) =
      .ok ⟨["a.png"].map (fun f => parsePrediction f ((fun _ => none) f)),
        scoreFormula
          (countCorrect [] (["a.png"].map (fun f => parsePrediction f ((fun _ => none) f))))
          (["a.png"] : List String).length⟩) ∧
    runExecutor [] ["b.png"] (fun _ => .error "boom") ≠ .ok ⟨[], 0⟩ :=
  ⟨(batch_isolation_amended [] ["a.png"] (fun _ => .ok none) (fun _ => none)).1
      (fun _ _ => rfl),
   (batch_isolation_amended [] ["b.png"] (fun _ => .error "boom") (fun _ => none)).2
      "b.png" (List.mem_singleton.mpr rfl) "boom" rfl ⟨[], 0⟩⟩

/-- C3 counterexample: a reply decoding to an object with a key missing gives
that field the JavaScript value `undefined`, not `null`; likewise a reply
decoding to a non-object, non-null JSON value (`42`) gives `undefined` fields
without throwing. -/
theorem missing_keys_are_undefined :
    (parsePrediction "a.png" (some (.jobj [("reading_value", .jnum 5)]))).min_value =
      none ∧
    (parsePrediction "a.png" (some (.jobj [("reading_value", .jnum 5)]))).min_value ≠
      some JVal.jnull ∧
    (parsePrediction "a.png" (some (.jnum 42))).units = none ∧
    (parsePrediction "a.png" (some (.jnum 42))).units ≠ some JVal.jnull := by
  refine ⟨rfl, ?_, rfl, ?_⟩ <;> exact fun h => Option.noConfusion h

/-- C3 amended: parsing never raises and always preserves the filename; a
`JSON.parse` exception (e.g. the text `"not json"`) or a top-level `null`
(whose property access throws inside the same `try`) yields the all-`null`
record; a reply decoding to a JSON object keeps the decoded value of each
present key while a missing key yields `undefined` (not `null`), which behaves
like `null` in scoring and serialization. -/
theorem parse_failure_handling_amended (filename : String) (parsed : Option JVal) :
    (parsePrediction filename parsed).filename = filename ∧
    (parsed = none → parsePrediction filename parsed = nullPrediction filename) ∧
    (parsed = some .jnull → parsePrediction filename parsed = nullPrediction filename) ∧
    (∀ fields, parsed = some (.jobj fields) →
      parsePrediction filename parsed =
        ⟨filename, objGet fields "min_value", objGet fields "max_value",
          objGet fields "reading_value", objGet fields "units"⟩) := by
  refine ⟨?_, ?_, ?_, ?_⟩
  · rcases parsed with _ | v
    · rfl
    · cases v <;> rfl
  · rintro rfl; rfl
  · rintro rfl; rfl
  · rintro fields rfl; rfl

/-- C3 amended witness: the thrown-parse reply and an object reply with one
key present. -/
theorem parse_failure_handling_amended_witness :
    parsePrediction "a.png" none = nullPrediction "a.png" ∧
    parsePrediction "a.png" (some (.jobj [("reading_value", .jnum 5)])) =
      ⟨"a.png", objGet [("reading_value", .jnum 5)] "min_value",
        objGet [("reading_value", .jnum 5)] "max_value",
        objGet [("reading_value", .jnum 5)] "reading_value",
        objGet [("reading_value", .jnum 5)] "units"⟩ :=
  ⟨(parse_failure_handling_amended "a.png" none).2.1 rfl,
   (parse_failure_handling_amended "a.png"
      (some (.jobj [("reading_value", .jnum 5)]))).2.2.2
      [("reading_value", .jnum 5)] rfl⟩

/-- The ground truth of the C10 scenario: one image read `5.5` in `"psi"`. -/
def gtC10 : List GroundTruthEntry :=
  [⟨"a.png", .num 0, .num 10, .num (11 / 2), "psi"⟩]

/-- A prediction whose model reported the reading as the JSON string `"5.5"`. -/
def predC10 : Prediction :=
  ⟨"a.png", some .jnull, some .jnull, some (.jstr "5.5"), some (.jstr "psi")⟩

lemma parseFloat_five_point_five : parseFloatStr "5.5" = .num (11 / 2) := by
  have h1 : ("5.5" : String).data.dropWhile jsWhitespace = ['5', '.', '5'] := by decide
  have h2 : splitSign ['5', '.', '5'] = (1, ['5', '.', '5']) := rfl
  have h3 : List.takeWhile Char.isDigit ['5', '.', '5'] = ['5'] := by decide
  have h4 : List.dropWhile Char.isDigit ['5', '.', '5'] = ['.', '5'] := by decide
  have h5 : fracPart ['.', '5'] = (['5'], []) := by decide
  simp only [parseFloatStr, parseFloatCore, h1, h2, h3, h4, h5]
  norm_num [mantissaOf, digitsVal, applyExp, parseExponent,
    show ('5').toNat = 53 from rfl]

/-- C10 counterexample: a reading reported as the JSON string `"5.5"` is
incorrect under the run command's `===` scoring (score 0), but the CSV stores
it as the text `5.5`, which the consolidator's `parseFloat` revives into the
number `5.5` — the recomputed score is 100, so the two scores differ. -/
theorem rescoring_differs_on_string_reading :
    countCorrect gtC10 [predC10] = 0 ∧
    consolScore gtC10 ([predC10].map serializeRow) = 100 ∧
    scoreFormula (countCorrect gtC10 [predC10]) ([predC10].length) ≠
      consolScore gtC10 ([predC10].map serializeRow) := by
  have hcount : countCorrect gtC10 [predC10] = 0 := rfl
  have hrow : rowCorrect gtC10 (serializeRow predC10) = true := by
    unfold rowCorrect
    rw [show gtLookup gtC10 (serializeRow predC10).filename =
        some ⟨"a.png", .num 0, .num 10, .num (11 / 2), "psi"⟩ from rfl]
    rw [show (serializeRow predC10).reading_value = Cell.str "5.5" from rfl,
        show (serializeRow predC10).units = Cell.str "psi" from rfl]
    rw [show cellParseFloat (Cell.str "5.5") = parseFloatStr "5.5" from rfl,
        parseFloat_five_point_five]
    simp [JsNum.isNaN, JsNum.seq, cellStr]
  have hscore : consolScore gtC10 ([predC10].map serializeRow) = 100 := by
    unfold consolScore
    rw [show ([predC10].map serializeRow).filter (rowCorrect gtC10) =
        [serializeRow predC10] from by simp [List.filter_cons, hrow]]
    norm_num [scoreFormula]
  refine ⟨hcount, hscore, ?_⟩
  rw [hcount, hscore]
  norm_num [scoreFormula]

/-- C10 amended: the run-time score and the consolidator's recomputed score
agree for every run whose predictions survive the CSV round trip unchanged:
each reading is a number, `null` or `undefined` (never a string `parseFloat`
could revive) and each units value is a string (or `null`/`undefined` while
the matching ground-truth units are non-empty). -/
theorem rescoring_matches_run_score (gt : List GroundTruthEntry)
    (images : List String) (adapter : String → Except String (Option JVal))
    (out : RunResult) (hrun : runExecutor gt images adapter = .ok out)
    (hgood : ∀ p ∈ out.records, goodPred gt p) :
    consolScore gt (out.records.map serializeRow) = out.score := by
  obtain ⟨hs, hl⟩ := runExecutor_ok_spec gt images adapter out hrun
  rw [hs, ← hl]
  unfold consolScore
  rw [countCorrect_serialize gt out.records hgood, List.length_map]

/-- C10 amended witness: an unparseable reply (all-`null` record) rescores to
the same value the run command computed. -/
theorem rescoring_matches_run_score_witness :
    consolScore gtC10 ([nullPrediction "a.png"].map serializeRow) =
      (⟨[nullPrediction "a.png"], scoreFormula 0 1⟩ : RunResult).score :=
  rescoring_matches_run_score gtC10 ["a.png"] (fun _ => .ok (some .jnull))
    ⟨[nullPrediction "a.png"], scoreFormula 0 1⟩ rfl
    (by
      intro p hp
      rw [List.mem_singleton] at hp
      subst hp
      refine ⟨Or.inr (Or.inl rfl), Or.inr ⟨Or.inr rfl, ?_⟩⟩
      intro e he
      cases he
      decide)

end GaugeBench
